import Mathlib

/-!
Verification development for the label/barcode image-compositing pipeline and
the surrounding bot glue of the `ozon` repository (`ozon_bot.py`).

The Python code is shallowly embedded: images become a structure of width,
height and a pixel-lookup function; PIL / PyMuPDF / python-barcode calls that
live outside the repository are modelled at the interface the repository uses
(raster sizes, glyph boxes, text metrics), and everything the repository
itself computes (cropping loops, wrapping loops, string munging, layout
arithmetic, admin guard, order dedup) is translated function by function.
-/

/-- An RGB pixel, one 0..255 value per channel (`img.getpixel` tuples). -/
structure Px where
  r : Nat
  g : Nat
  b : Nat
deriving DecidableEq, Repr

def whitePx : Px := ⟨255, 255, 255⟩

def blackPx : Px := ⟨0, 0, 0⟩

/-- An in-memory raster image: pixel dimensions plus pixel lookup.
`pix` is total; only arguments below `w`/`h` are ever inspected. -/
structure Img where
  w : Nat
  h : Nat
  pix : Nat → Nat → Px

/-- Row-sampling stride of `smart_crop_image`: `max(1, height // 20)`. -/
def cropStride (h : Nat) : Nat := max 1 (h / 20)

/-- The sampled rows `range(0, height, max(1, height // 20))`. -/
def sampledRows (h : Nat) : List Nat :=
  List.range' 0 ((h + cropStride h - 1) / cropStride h) (cropStride h)

/-- Pixel test inside the column scans of `smart_crop_image`:
`r < 250 or g < 250 or b < 250`. -/
def darkPx (p : Px) : Bool := p.r < 250 || p.g < 250 || p.b < 250

/-- `has_content` for one column of `smart_crop_image`: some sampled row's
pixel passes the darkness test. -/
def contentCol (img : Img) (x : Nat) : Bool :=
  (sampledRows img.h).any (fun y => darkPx (img.pix x y))

/-- `for x in range(i, i+fuel): if p x: break` — first hit of an upward scan. -/
def findFirstHit (p : Nat → Bool) : Nat → Nat → Option Nat
  | _, 0 => none
  | i, fuel + 1 => if p i then some i else findFirstHit p (i + 1) fuel

/-- `for x in range(n-1, -1, -1): if p x: break` — first hit of a downward scan. -/
def findLastHit (p : Nat → Bool) : Nat → Option Nat
  | 0 => none
  | n + 1 => if p n then some n else findLastHit p n

/-- `left_boundary` of `smart_crop_image`: first content column minus a 10px
margin clamped at 0 (`max(0, x - 10)`), or 0 when no column has content. -/
def leftBoundary (img : Img) : Nat :=
  match findFirstHit (contentCol img) 0 img.w with
  | some x => x - 10
  | none => 0

/-- `right_boundary` of `smart_crop_image`: last content column plus a 10px
margin clamped at the width (`min(width, x + 10)`), or `width` when no column
has content. -/
def rightBoundary (img : Img) : Nat :=
  match findLastHit (contentCol img) img.w with
  | some x => min img.w (x + 10)
  | none => img.w

/-- The crop-or-not test of `smart_crop_image`:
`left_boundary > 0 or right_boundary < width - 10` (Python `int` arithmetic,
so the right comparison is over `ℤ`). -/
def cropGuard (img : Img) : Bool :=
  decide (0 < leftBoundary img) ||
    decide ((rightBoundary img : Int) < (img.w : Int) - 10)

/-- `img.crop((left_boundary, 0, right_boundary, height))`. -/
def cropOf (img : Img) : Img :=
  { w := rightBoundary img - leftBoundary img
    h := img.h
    pix := fun x y => img.pix (x + leftBoundary img) y }

/-- `smart_crop_image`: crop the computed window when the guard fires,
otherwise return the input unchanged. -/
def smart_crop_image (img : Img) : Img :=
  if cropGuard img then cropOf img else img

/-- Modelled from the spec: a column is "content" when some sampled pixel's
RGB channel *average* is below 250 (the code instead tests each channel
separately); used only to compare the spec's wording with the code. -/
def specDarkPx (p : Px) : Bool := p.r + p.g + p.b < 750

/-- Modelled from the spec: `contentCol` with the channel-average test. -/
def specContentCol (img : Img) (x : Nat) : Bool :=
  (sampledRows img.h).any (fun y => specDarkPx (img.pix x y))

/-- Modelled from the spec: `smart_crop_image` with the channel-average
content test, all other steps identical. -/
def spec_smart_crop_image (img : Img) : Img :=
  let lb : Nat :=
    match findFirstHit (specContentCol img) 0 img.w with
    | some x => x - 10
    | none => 0
  let rb : Nat :=
    match findLastHit (specContentCol img) img.w with
    | some x => min img.w (x + 10)
    | none => img.w
  if decide (0 < lb) || decide ((rb : Int) < (img.w : Int) - 10) then
    { w := rb - lb, h := img.h, pix := fun x y => img.pix (x + lb) y }
  else img

/-! ### Text fitting (`draw_text_with_smart_fit` in `generate_smart_label`) -/

/-- Font metrics oracle standing for `draw.textlength(s, font)` at a given
font size: the fonts live outside the repository, so the advance width of a
string is a parameter of the embedding. -/
def TextMetrics : Type := Nat → List Char → Nat

/-- Whitespace as recognised by Python `str.split` / `str.strip`. -/
def isSpaceCh (c : Char) : Bool := c = ' ' || c = '\t' || c = '\n' || c = '\r'

def splitWsAux : List Char → List Char → List (List Char)
  | [], cur => if cur = [] then [] else [cur.reverse]
  | c :: rest, cur =>
    if isSpaceCh c then
      if cur = [] then splitWsAux rest [] else cur.reverse :: splitWsAux rest []
    else splitWsAux rest (c :: cur)

/-- Python `text.split()`: split on whitespace runs, dropping empty pieces. -/
def splitWs (s : List Char) : List (List Char) := splitWsAux s []

/-- Python `s.strip()`. -/
def stripWs (s : List Char) : List Char :=
  ((s.dropWhile isSpaceCh).reverse.dropWhile isSpaceCh).reverse

def dots : List Char := ['.', '.', '.']

/-- `current_line + (" " if current_line else "") + word`. -/
def sepJoin (cur w : List Char) : List Char :=
  cur ++ (if cur = [] then [] else [' ']) ++ w

/-- The word-truncation loop:
`while draw.textlength(trunc + "...", font) > budget and len(trunc) > 3:
trunc = trunc[:-1]` (fuel is the word length, enough for the loop to end). -/
def truncateWordLoop (wdt : List Char → Nat) (budget : Int) :
    Nat → List Char → List Char
  | 0, wo => wo
  | fuel + 1, wo =>
    if budget < (wdt (wo ++ dots) : Int) ∧ 3 < wo.length then
      truncateWordLoop wdt budget fuel wo.dropLast
    else wo

/-- The main word-wrapping loop of `draw_text_with_smart_fit` (the one run
for each candidate font size, safety budget `max_width - 20`). State is the
accumulated lines and the current line. -/
def wrapMainAux (wdt : List Char → Nat) (budget : Int) :
    List (List Char) → List (List Char) → List Char →
      List (List Char) × List Char
  | [], lines, cur => (lines, cur)
  | w :: ws, lines, cur =>
    let test := sepJoin cur w
    if (wdt test : Int) ≤ budget then
      wrapMainAux wdt budget ws lines test
    else if cur ≠ [] then
      wrapMainAux wdt budget ws (lines ++ [cur]) w
    else if budget < (wdt w : Int) then
      wrapMainAux wdt budget ws
        (lines ++ [truncateWordLoop wdt budget w.length w ++ dots]) []
    else
      wrapMainAux wdt budget ws lines w

/-- Word-wrap `text` against `budget`, flushing the pending line at the end. -/
def wrapMain (wdt : List Char → Nat) (budget : Int) (text : List Char) :
    List (List Char) :=
  let (lines, cur) := wrapMainAux wdt budget (splitWs text) [] []
  if cur = [] then lines else lines ++ [cur]

/-- The last-resort wrapping loop of `draw_text_with_smart_fit` (font size
20, budget `max_width - 10`); it differs from the main loop in the
empty-current-line cases: the truncated word is appended without clearing
`current_line` (already empty) and a fitting word is appended directly. -/
def wrapFallbackAux (wdt : List Char → Nat) (budget : Int) :
    List (List Char) → List (List Char) → List Char →
      List (List Char) × List Char
  | [], lines, cur => (lines, cur)
  | w :: ws, lines, cur =>
    let test := sepJoin cur w
    if (wdt test : Int) ≤ budget then
      wrapFallbackAux wdt budget ws lines test
    else if cur ≠ [] then
      wrapFallbackAux wdt budget ws (lines ++ [cur]) w
    else if budget < (wdt w : Int) then
      wrapFallbackAux wdt budget ws
        (lines ++ [truncateWordLoop wdt budget w.length w ++ dots]) cur
    else
      wrapFallbackAux wdt budget ws (lines ++ [w]) cur

def wrapFallback (wdt : List Char → Nat) (budget : Int) (text : List Char) :
    List (List Char) :=
  let (lines, cur) := wrapFallbackAux wdt budget (splitWs text) [] []
  if cur = [] then lines else lines ++ [cur]

/-- Result of `draw_text_with_smart_fit`: accepted font size, the lines it
draws, and whether the last-resort path was taken. -/
structure FitOut where
  fontSize : Nat
  lines : List (List Char)
  fallback : Bool
deriving DecidableEq, Repr

/-- The candidate font sizes `[50, 45, 40, 35, 30, 25, 20, 18, 16, 14, 12]`. -/
def smartFontSizes : List Nat := [50, 45, 40, 35, 30, 25, 20, 18, 16, 14, 12]

/-- The font-size loop: accept the first size whose wrapped lines satisfy
`len(lines) * font_size <= max_height and len(lines) <= 4`; otherwise fall
back to size 20 with the fallback wrap, drawing at most `lines[:3]`. -/
def fitLoop (m : TextMetrics) (text : List Char) (maxW maxH : Nat) :
    List Nat → FitOut
  | [] => ⟨20, (wrapFallback (m 20) ((maxW : Int) - 10) text).take 3, true⟩
  | fs :: rest =>
    let ls := wrapMain (m fs) ((maxW : Int) - 20) text
    if ls.length * fs ≤ maxH ∧ ls.length ≤ 4 then ⟨fs, ls, false⟩
    else fitLoop m text maxW maxH rest

/-- `draw_text_with_smart_fit` as defined inside `generate_smart_label`. -/
def draw_text_with_smart_fit (m : TextMetrics) (text : List Char)
    (maxW maxH : Nat) : FitOut :=
  fitLoop m text maxW maxH smartFontSizes

/-! ### Drawn-line geometry (block-glyph model of `draw.text`) -/

/-- One drawn text line modelled as the box it covers: real glyph
rasterisation lives outside the repository, so a drawn line is modelled as
covering its advance-width × font-size box at the position the code
computes (`line_x = x + (max_width - line_width) // 2`, `line_y = y + i *
font_size`). -/
structure DrawBox where
  x : Int
  y : Int
  bw : Nat
  bh : Nat
deriving DecidableEq, Repr

def lineBoxes (wdt : List Char → Nat) (fsz : Nat) (x0 y0 : Int) (maxW : Nat)
    (ls : List (List Char)) : List DrawBox :=
  ls.enum.map fun iw =>
    { x := x0 + Int.fdiv ((maxW : Int) - (wdt iw.2 : Int)) 2
      y := y0 + (iw.1 : Int) * (fsz : Int)
      bw := wdt iw.2
      bh := fsz }

def boxesOfFit (m : TextMetrics) (f : FitOut) (x0 y0 : Int) (maxW : Nat) :
    List DrawBox :=
  lineBoxes (m f.fontSize) f.fontSize x0 y0 maxW f.lines

def inBoxes (bs : List DrawBox) (x y : Nat) : Bool :=
  bs.any fun b =>
    decide (b.x ≤ (x : Int)) && decide ((x : Int) < b.x + (b.bw : Int)) &&
      decide (b.y ≤ (y : Int)) && decide ((y : Int) < b.y + (b.bh : Int))

/-! ### Product-name munging (`extract_color_from_product`,
`shorten_product_name_for_barcode`, and the `product_text` branches of
`generate_smart_label`) -/

/-- Python `str.lower()` restricted to the repertoire this code handles:
ASCII letters and Cyrillic (`А`–`Я`, `Ё`). -/
def rusLowerChar (c : Char) : Char :=
  if 65 ≤ c.toNat ∧ c.toNat ≤ 90 then Char.ofNat (c.toNat + 32)
  else if 1040 ≤ c.toNat ∧ c.toNat ≤ 1071 then Char.ofNat (c.toNat + 32)
  else if c.toNat = 1025 then Char.ofNat 1105
  else c

def lowerStr (s : String) : String := ⟨s.data.map rusLowerChar⟩

def isPrefixL : List Char → List Char → Bool
  | [], _ => true
  | _ :: _, [] => false
  | a :: as, b :: bs => a = b && isPrefixL as bs

/-- Python `needle in hay` on strings. -/
def containsSub (needle : List Char) : List Char → Bool
  | [] => needle = []
  | c :: rest => isPrefixL needle (c :: rest) || containsSub needle rest

def strContains (hay needle : String) : Bool := containsSub needle.data hay.data

/-- Python `hay.replace(needle, "")` (all occurrences, left to right); the
code only ever calls this with a non-empty needle. Fuel is the hay length. -/
def removeAllSub (needle : List Char) : Nat → List Char → List Char
  | _, [] => []
  | 0, s => s
  | fuel + 1, c :: rest =>
    if needle ≠ [] ∧ isPrefixL needle (c :: rest) then
      removeAllSub needle fuel (List.drop (needle.length - 1) rest)
    else c :: removeAllSub needle fuel rest

def removeSub (hay needle : String) : String :=
  ⟨removeAllSub needle.data hay.data.length hay.data⟩

/-- The character class kept by `re.sub(r'[^\w\s\-]', '', name)`: word
characters (here: ASCII alphanumerics, `_`, Cyrillic), whitespace, `-`. -/
def keptCh (c : Char) : Bool :=
  (97 ≤ c.toNat && c.toNat ≤ 122) || (65 ≤ c.toNat && c.toNat ≤ 90) ||
    (48 ≤ c.toNat && c.toNat ≤ 57) || c = '_' ||
    (1040 ≤ c.toNat && c.toNat ≤ 1103) || c.toNat = 1025 || c.toNat = 1105 ||
    isSpaceCh c || c = '-'

/-- The color lexicon of `shorten_product_name_for_barcode`. -/
def colorWords : List String :=
  ["красный", "синий", "голубой", "зеленый", "желтый", "оранжевый",
   "фиолетовый", "розовый", "фуксия", "коричневый", "черный", "белый",
   "серый", "золотой", "серебряный", "радужный", "разноцветный"]

/-- The substring → color table of `extract_color_from_product`, in source
order (first match wins). -/
def colorPatterns : List (String × String) :=
  [("красн", "красный"), ("син", "синий"), ("голуб", "голубой"),
   ("зелен", "зеленый"), ("желт", "желтый"), ("оранж", "оранжевый"),
   ("фиолет", "фиолетовый"), ("розов", "розовый"), ("фукси", "фуксия"),
   ("коричнев", "коричневый"), ("черн", "черный"), ("бел", "белый"),
   ("сер", "серый"), ("золот", "золотой"), ("серебр", "серебряный"),
   ("радужн", "радужный"), ("разноцветн", "разноцветный"),
   ("multicolor", "разноцветный"), ("rainbow", "радужный"),
   ("red", "красный"), ("blue", "синий"), ("green", "зеленый"),
   ("yellow", "желтый"), ("orange", "оранжевый"), ("purple", "фиолетовый"),
   ("pink", "розовый"), ("fuchsia", "фуксия"), ("brown", "коричневый"),
   ("black", "черный"), ("white", "белый"), ("gray", "серый"),
   ("grey", "серый"), ("gold", "золотой"), ("silver", "серебряный")]

/-- `extract_color_from_product(product_data, product_name)`; `product_data`
is reduced to its `color_image` list (the only key read). -/
def extract_color_from_product (colorImage : List String)
    (productName : String) : String :=
  match colorImage with
  | c :: _ => c
  | [] =>
    if productName = "" || productName = "N/A" then "N/A"
    else
      let nl := (lowerStr productName).data
      match colorPatterns.find? (fun pc => containsSub pc.1.data nl) with
      | some pc => pc.2
      | none => "N/A"

/-- The accumulate-words-until-over-budget loop used twice in
`shorten_product_name_for_barcode` (`reserve` is `color_length`, or 0 in
the colorless path); `break` returns the accumulator. -/
def fitWordsWithReserve (maxLen reserve : Nat) :
    List (List Char) → List Char → List Char
  | [], acc => acc
  | w :: ws, acc =>
    let t := sepJoin acc w
    if t.length + reserve ≤ maxLen then fitWordsWithReserve maxLen reserve ws t
    else acc

/-- The dotted-abbreviation loop of `shorten_product_name_for_barcode`:
long words become their first 3 characters plus `.`, stopping when the
running length would pass `maxLen`. -/
def dottedShorten (maxLen : Nat) : List (List Char) → Nat → List (List Char)
  | [], _ => []
  | w :: ws, cl =>
    if 4 < w.length then
      let sw := w.take 3 ++ ['.']
      if cl + sw.length + 1 ≤ maxLen then
        sw :: dottedShorten maxLen ws (cl + sw.length + 1)
      else []
    else
      if cl + w.length + 1 ≤ maxLen then
        w :: dottedShorten maxLen ws (cl + w.length + 1)
      else []

def joinSpace (ws : List (List Char)) : List Char := List.intercalate [' '] ws

/-- `shorten_product_name_for_barcode(product_name, max_length)`. -/
def shorten_product_name_for_barcode (productName : String)
    (maxLength : Nat) : String :=
  if productName = "" || productName = "N/A" then "Товар"
  else
    let clean := productName.data.filter keptCh
    if clean.length ≤ maxLength then ⟨clean⟩
    else
      let ws := splitWs clean
      if ws = [] then ⟨clean.take maxLength⟩
      else
        match ws.find?
            (fun w => colorWords.any (fun cw => cw.data = w.map rusLowerChar)) with
        | some colorFound =>
          let wsNoColor :=
            ws.filter (fun w => w.map rusLowerChar ≠ colorFound.map rusLowerChar)
          let colorLen := colorFound.length + 1
          let result := fitWordsWithReserve maxLength colorLen wsNoColor []
          if result ≠ [] then ⟨result ++ [' '] ++ colorFound⟩ else ⟨colorFound⟩
        | none =>
          let result := fitWordsWithReserve maxLength 0 ws []
          let result2 :=
            if result = [] then joinSpace (dottedShorten maxLength ws 0)
            else result
          if result2 = [] then ⟨clean.take maxLength⟩ else ⟨result2⟩

/-- One order line item (`{name, sku, quantity}`). -/
structure LineItem where
  name : String
  sku : String
  quantity : Nat
deriving DecidableEq, Repr

/-- The shared short-name-plus-color pattern of the `product_text` branches
of `generate_smart_label`: detect a color, strip the *lower-cased* color
from the name with `str.replace` (case-sensitive), shorten to `capColor`
characters and re-append the color, or shorten the whole name to
`capPlain`. -/
def displayNameFor (fullName : String) (capColor capPlain : Nat) : String :=
  let color := extract_color_from_product [] fullName
  if color ≠ "N/A" && strContains (lowerStr fullName) (lowerStr color) then
    let shortName : String :=
      ⟨stripWs (shorten_product_name_for_barcode
        (removeSub fullName (lowerStr color)) capColor).data⟩
    if shortName ≠ "" then shortName ++ " " ++ color else color
  else shorten_product_name_for_barcode fullName capPlain

/-- The `product_text` computation of `generate_smart_label`: one item,
2–3 items, more than 3 items, or the no-`products_info` fallback built
from `product_name`. -/
def smartLabelText (productsInfo : List LineItem) (productName : String) :
    String :=
  match productsInfo with
  | [] => "Заказ: " ++ displayNameFor productName 10 15
  | [p] =>
    "Заказ " ++ toString p.quantity ++ " товар: " ++ displayNameFor p.name 25 30
  | ps =>
    let total := (ps.map LineItem.quantity).sum
    let entry := fun (p : LineItem) =>
      displayNameFor p.name 6 8 ++ " x" ++ toString p.quantity
    if ps.length ≤ 3 then
      "Заказ " ++ toString total ++ " товаров: " ++
        String.intercalate ", " (ps.map entry)
    else
      "Заказ " ++ toString total ++ " товаров: " ++
        String.intercalate ", " ((ps.take 2).map entry) ++
        " +" ++ toString (ps.length - 2)

/-! ### `generate_smart_label` and
`create_combined_barcode_label_image` geometry -/

/-- `img.rotate(90, expand=True)`: 90° counter-clockwise with expansion. -/
def rotateCCW (img : Img) : Img :=
  ⟨img.h, img.w, fun x y => img.pix (img.w - 1 - y) x⟩

/-- The composite canvas of `generate_smart_label`: width clamped to
`MAX_WIDTH = 1202`, a 200px text band below the label, white background,
the rotated label pasted at `(0, 0)` (clipped by the canvas), and the
drawn text lines (black) on top. -/
def renderSmartCanvas (label : Img) (cmds : List DrawBox) : Img :=
  ⟨min label.w 1202, label.h + 200, fun x y =>
    if inBoxes cmds x y then blackPx
    else if x < label.w ∧ y < label.h then label.pix x y
    else whitePx⟩

/-- The two `draw_text_with_smart_fit` calls of `generate_smart_label`:
product text at `(0, pdf_height + 20)` and order text 200px below, both
with `max_width = pdf_width` and `max_height = 200`. -/
def smartLabelCmds (m : TextMetrics) (labelW labelH : Nat)
    (productText orderText : String) : List DrawBox :=
  let cw := min labelW 1202
  boxesOfFit m (draw_text_with_smart_fit m productText.data cw 200)
      0 ((labelH : Int) + 20) cw ++
    boxesOfFit m (draw_text_with_smart_fit m orderText.data cw 200)
      0 ((labelH : Int) + 220) cw

/-- `generate_smart_label` from the rotated raster label on: compose the
canvas, draw the texts, and `smart_crop_image` the result. -/
def generate_smart_label_img (m : TextMetrics) (rotated : Img)
    (productsInfo : List LineItem) (productName postingNumber : String) :
    Img :=
  smart_crop_image (renderSmartCanvas rotated
    (smartLabelCmds m rotated.w rotated.h
      (smartLabelText productsInfo productName)
      ("Заказ: " ++ postingNumber)))

/-- `generate_smart_label` including the PDF stage: `None` models the
logged-and-swallowed failure return (unparseable document, or
`page_count == 0`); otherwise the first page's 4×-scaled pixmap (rendered
by the external PDF library) is rotated and composed. -/
def generate_smart_label (m : TextMetrics) (pdf : Option (List Img))
    (productsInfo : List LineItem) (productName postingNumber : String) :
    Option Img :=
  match pdf with
  | none => none
  | some [] => none
  | some (pg :: _) =>
    some (generate_smart_label_img m (rotateCCW pg) productsInfo
      productName postingNumber)

/-- The caller of the combined pipeline (`get_combined_barcode_label`):
on a `None` artifact it reports the failure in chat instead of sending a
document; the handler returns either way. -/
def combined_label_caller_report (result : Option Img) : String :=
  match result with
  | some _ => "document"
  | none => "error_message"

/-- One pasted sub-image at a (possibly negative) position. -/
structure PasteBox where
  x : Int
  y : Int
  img : Img

def inPaste (p : PasteBox) (x y : Nat) : Bool :=
  decide (p.x ≤ (x : Int)) && decide ((x : Int) < p.x + (p.img.w : Int)) &&
    decide (p.y ≤ (y : Int)) && decide ((y : Int) < p.y + (p.img.h : Int))

/-- Successive barcode pastes of `create_combined_barcode_label_image`:
each centered (`(total_width - w) // 2`), stacked with 20px padding. -/
def stackPastes (tw : Nat) : Int → List Img → List PasteBox
  | _, [] => []
  | y0, b :: bs =>
    ⟨Int.fdiv ((tw : Int) - (b.w : Int)) 2, y0, b⟩ ::
      stackPastes tw (y0 + (b.h : Int) + 20) bs

/-- The combined canvas: `total_width = label_width`,
`total_height = label_height + total_barcode_height + 20`, smart label
pasted at `(0, 10)`, barcodes centered from `y = label_height + 10`. -/
def combinedCanvas (label : Img) (bars : List Img) : Img :=
  let tw := label.w
  let pastes := stackPastes tw ((label.h : Int) + 10) bars
  ⟨tw,
   label.h + ((bars.map Img.h).sum + (bars.length - 1) * 20) + 20,
   fun x y =>
    match pastes.find? (fun p => inPaste p x y) with
    | some p => p.img.pix ((x : Int) - p.x).toNat ((y : Int) - p.y).toNat
    | none =>
      if x < label.w ∧ 10 ≤ y ∧ y < label.h + 10 then label.pix x (y - 10)
      else whitePx⟩

/-- `create_combined_barcode_label_image` from the already-rendered barcode
images on (the barcodes themselves are rendered by the external barcode
library): `None` when no barcode could be built, otherwise the cropped
combined canvas. -/
def create_combined_barcode_label_image (smartLabel : Img)
    (barcodeImgs : List Img) : Option Img :=
  if barcodeImgs.isEmpty then none
  else some (smart_crop_image (combinedCanvas smartLabel barcodeImgs))

/-! ### Barcode-image size arithmetic (`generate_barcode_image_for_combined`
and `generate_barcode_image`) -/

/-- Modelled from the external python-barcode library: Code128 module count
for an all-digit payload of length `n > 3` — a start symbol (subset C after
the start-code optimisation), one symbol per digit pair, a switch to subset
B plus one symbol for a trailing odd digit, the checksum symbol (11 modules
each), and the 13-module stop pattern. -/
def code128DigitModules (n : Nat) : Nat :=
  11 * (1 + n / 2 + (if n % 2 = 1 then 2 else 0) + 1) + 13

/-- Modelled from the external python-barcode `ImageWriter`: millimetres
(held in tenths so 0.8/6.0 stay exact) to pixels at 300 dpi,
`int(mm * 300 / 25.4)`; the inputs used here are far from integer
boundaries so the float and rational floors agree. -/
def tenthMmToPx (t : Nat) : Nat := t * 150 / 127

/-- Raw `code.render(writer_options)` pixel size for an all-digit payload:
width from the module count at `module_width` plus two `quiet_zone`s,
height `2.0 + module_height` (all in tenths of mm). -/
def rawDigitBarcodeSize (nDigits mwTenth mhTenth qzTenth : Nat) : Nat × Nat :=
  (tenthMmToPx (2 * qzTenth + code128DigitModules nDigits * mwTenth),
   tenthMmToPx (20 + mhTenth))

/-- The size arithmetic of `generate_barcode_image_for_combined` applied to
a raw barcode of size `raw`: downscale to width 1202 when wider (height
proportional, LANCZOS in the source), then a canvas of `img_width =
MAX_WIDTH = 1202` and `img_height = height + 300 + 2 * 5`. -/
def generate_barcode_image_for_combined_size (raw : Nat × Nat) : Nat × Nat :=
  let scaled := if 1202 < raw.1 then (1202, raw.2 * 1202 / raw.1) else raw
  (1202, scaled.2 + 300 + 2 * 5)

/-- The size arithmetic of `generate_barcode_image` applied to a raw
barcode of size `raw`: `img_width = width` (the raw width, uncapped and
never downscaled), `img_height = height + 300 + 2 * 30`. -/
def generate_barcode_image_size (raw : Nat × Nat) : Nat × Nat :=
  (raw.1, raw.2 + 300 + 2 * 30)

/-! ### Order monitor dedup (`OrderMonitor.check_new_orders`) -/

/-- The order loop of `check_new_orders`: walk the fetched postings; a
posting with a truthy `posting_number` not yet in `processed_orders` is
added to the set *and* collected into `new_orders`. Returns the new set and
the collected batch, in encounter order. -/
def check_new_orders_loop :
    List (Option String) → List String → List String × List String
  | [], processed => (processed, [])
  | o :: rest, processed =>
    match o with
    | none => check_new_orders_loop rest processed
    | some pn =>
      if pn = "" ∨ pn ∈ processed then check_new_orders_loop rest processed
      else
        let r := check_new_orders_loop rest (pn :: processed)
        (r.1, pn :: r.2)

/-- A run of the monitor: one `check_new_orders` per polling interval; a
notification is sent only for a non-empty `new_orders` batch. Returns the
final `processed_orders` set and the notified batches. -/
def order_monitor_run (processed : List String) :
    List (List (Option String)) → List String × List (List String)
  | [] => (processed, [])
  | batch :: batches =>
    let r := check_new_orders_loop batch processed
    let rest := order_monitor_run r.1 batches
    (rest.1, if r.2 = [] then rest.2 else r.2 :: rest.2)

/-- Number of times posting number `pn` appears across all sent
notifications. -/
def notifCount (pn : String) (hist : List (List String)) : Nat :=
  (hist.map (fun ns => ns.count pn)).sum

/-! ### Admin gate (`is_admin` and the Telegram handlers) -/

/-- `is_admin`: `str(user_id) in [str(Config.ADMIN_CHAT_ID), "669994046"]`. -/
def is_admin (adminChatId : String) (userId : Int) : Bool :=
  [adminChatId, "669994046"].contains (toString userId)

def check_admin_access (adminChatId : String) (userId : Int) : Bool :=
  is_admin adminChatId userId

/-- Observable actions of a handler: the access-denied reply, a callback
acknowledgement, a plain chat message, or a dispatched menu action (every
marketplace API call happens inside some dispatched action). -/
inductive BotEffect where
  | accessDenied
  | answerCallback (text : Option String) (showAlert : Bool)
  | sendText (s : String)
  | menuAction (name : String) (arg : String)
deriving DecidableEq, Repr

def BotEffect.isDeniedReply : BotEffect → Bool
  | .accessDenied => true
  | .answerCallback _ _ => true
  | _ => false

def show_main_menu (adminChatId : String) (userId : Int) : List BotEffect :=
  if !check_admin_access adminChatId userId then [.accessDenied]
  else [.menuAction "main_menu" ""]

def start_command (adminChatId : String) (userId : Int) : List BotEffect :=
  show_main_menu adminChatId userId

def help_command (adminChatId : String) (userId : Int) : List BotEffect :=
  if !check_admin_access adminChatId userId then [.accessDenied]
  else [.sendText "help_text"]

def orders_command (adminChatId : String) (userId : Int) : List BotEffect :=
  if !check_admin_access adminChatId userId then [.accessDenied]
  else [.sendText "orders_menu"]

def labels_command (adminChatId : String) (userId : Int) : List BotEffect :=
  if !check_admin_access adminChatId userId then [.accessDenied]
  else [.menuAction "show_labels_menu" ""]

def monitor_command (adminChatId : String) (userId : Int) : List BotEffect :=
  if !check_admin_access adminChatId userId then [.accessDenied]
  else [.sendText "monitor_status"]

/-- Python `data.replace(pre, "")` used to peel callback arguments. -/
def stripPre (pre data : String) : String := data.replace pre ""

/-- Python `s.isdigit()` (false on the empty string). -/
def isDigitStr (s : String) : Bool := s ≠ "" && s.data.all Char.isDigit

/-- The `elif` dispatch of `callback_handler`, in source order (including
the `product_detail_` branch that is shadowed by the earlier `product_`
prefix test). An unmatched `data` produces no action. -/
def callback_dispatch (data : String) : List BotEffect :=
  if data = "main_menu" then [.menuAction "show_main_menu" ""]
  else if data = "packaging_orders" then [.menuAction "show_packaging_orders" ""]
  else if data = "delivery_orders" then [.menuAction "show_delivery_orders" ""]
  else if data = "labels" then [.menuAction "show_labels_menu" ""]
  else if data = "notifications" then [.menuAction "show_notifications_menu" ""]
  else if data = "stats" then [.menuAction "show_stats" ""]
  else if data = "all_products" then [.menuAction "show_all_products_menu" "0"]
  else if data.startsWith "products_page_" then
    [.menuAction "show_all_products_menu" (stripPre "products_page_" data)]
  else if data = "products_packaging" then
    [.menuAction "show_products_by_status" "awaiting_packaging"]
  else if data = "products_delivery" then
    [.menuAction "show_products_by_status" "awaiting_deliver"]
  else if data.startsWith "order_" then
    [.menuAction "show_order_details" (stripPre "order_" data)]
  else if data.startsWith "ship_" then
    [.menuAction "ship_order" (stripPre "ship_" data)]
  else if data.startsWith "label_" then
    [.menuAction "show_order_details" (stripPre "label_" data)]
  else if data.startsWith "download_label_" then
    [.menuAction "get_single_label" (stripPre "download_label_" data)]
  else if data.startsWith "download_barcode_" then
    [.menuAction "get_single_barcode" (stripPre "download_barcode_" data)]
  else if data.startsWith "products_" then
    [.menuAction "show_order_products" (stripPre "products_" data)]
  else if data.startsWith "barcodes_" then
    [.menuAction "get_order_barcodes" (stripPre "barcodes_" data)]
  else if data.startsWith "combined_" then
    [.menuAction "get_combined_barcode_label" (stripPre "combined_" data)]
  else if data.startsWith "product_" then
    let parts := data.splitOn "_"
    if 3 ≤ parts.length then
      [.menuAction "show_product_from_order"
        (parts.getD 1 "" ++ ":" ++ parts.getD 2 "")]
    else []
  else if data.startsWith "product_detail_" then
    let pid := stripPre "product_detail_" data
    if isDigitStr pid then [.menuAction "show_product_details" pid]
    else [.sendText "invalid_product_id"]
  else if data.startsWith "item_detail_" then
    let pid := stripPre "item_detail_" data
    if isDigitStr pid then [.menuAction "show_product_details" pid]
    else [.sendText "invalid_product_id"]
  else if data.startsWith "edit_stock_" then
    [.menuAction "show_edit_stock_menu" (stripPre "edit_stock_" data)]
  else if data.startsWith "update_stock_" then
    let parts := (stripPre "update_stock_" data).splitOn "_"
    if 2 ≤ parts.length then
      [.menuAction "update_product_stock"
        (parts.getD 0 "" ++ ":" ++ parts.getD 1 "")]
    else []
  else if data.startsWith "barcode_" then
    [.menuAction "get_product_barcode_by_id" (stripPre "barcode_" data)]
  else if data = "start_monitoring" then [.menuAction "start_monitoring" ""]
  else if data = "stop_monitoring" then [.menuAction "stop_monitoring" ""]
  else if data = "monitoring_status" then [.menuAction "show_monitoring_status" ""]
  else []

/-- `callback_handler`: denied users get only the alert acknowledgement and
the access-denied message; admitted users get a plain acknowledgement and
the dispatched action. -/
def callback_handler (adminChatId : String) (userId : Int) (data : String) :
    List BotEffect :=
  if !check_admin_access adminChatId userId then
    [.answerCallback (some "Доступ запрещен") true, .accessDenied]
  else
    .answerCallback none false :: callback_dispatch data

/-! ### Concrete instances used in scenario evaluations -/

/-- Metrics oracle with advance width `font_size * len(s)` (a plain
fixed-pitch font model). -/
def linMetrics : TextMetrics := fun fs s => fs * s.length

/-- Metrics oracle with advance width `font_size * len(s) * 0.6` (an
average proportional-font advance). -/
def propMetrics : TextMetrics := fun fs s => fs * s.length * 6 / 10

/-- A 300×40 rotated label, white except one black content column at
`x = 150`. -/
def c1Label : Img := ⟨300, 40, fun x _ => if x = 150 then blackPx else whitePx⟩

/-- A 100×50 all-black stand-in for one rendered barcode image. -/
def c1Barcode : Img := ⟨100, 50, fun _ _ => blackPx⟩

/-- A 30×1 image, white except column 15, whose pixel `(249, 255, 255)` has
one channel below 250 but channel average 253. -/
def c4Img : Img := ⟨30, 1, fun x _ => if x = 15 then ⟨249, 255, 255⟩ else whitePx⟩

/-- A 3×1 image with a single black content column at `x = 1`. -/
def c4SmallImg : Img := ⟨3, 1, fun x _ => if x = 1 then blackPx else whitePx⟩

/-- The C7 scenario line item. -/
def c7Item : LineItem := ⟨"Красный чехол для телефона", "123", 2⟩

/-- Number of start positions at which `needle` occurs in the string. -/
def countSubOcc (needle : List Char) : List Char → Nat
  | [] => 0
  | c :: rest =>
    (if isPrefixL needle (c :: rest) then 1 else 0) + countSubOcc needle rest

/-- Metrics oracle that renders everything at width 0 (used only to witness
universally-quantified statements). -/
def zeroMetrics : TextMetrics := fun _ _ => 0

/-- A 5×5 all-white stand-in image. -/
def whiteImg5 : Img := ⟨5, 5, fun _ _ => whitePx⟩

/-- A 2×2 all-white stand-in image. -/
def whiteImg2 : Img := ⟨2, 2, fun _ _ => whitePx⟩

section ScanLemmas

lemma findFirstHit_eq_some (p : Nat → Bool) (i fuel x : Nat)
    (hlo : i ≤ x) (hhi : x < i + fuel) (hp : p x = true)
    (hmin : ∀ j, i ≤ j → j < x → p j = false) :
    findFirstHit p i fuel = some x := by
  induction fuel generalizing i with
  | zero => omega
  | succ n ih =>
    rcases Nat.eq_or_lt_of_le hlo with h | h
    · subst h; simp [findFirstHit, hp]
    · have hi : p i = false := hmin i le_rfl h
      simp [findFirstHit, hi]
      exact ih (i + 1) h (by omega) (fun j hj hj' => hmin j (by omega) hj')

lemma findFirstHit_none (p : Nat → Bool) (i fuel : Nat)
    (h : ∀ j, i ≤ j → j < i + fuel → p j = false) :
    findFirstHit p i fuel = none := by
  induction fuel generalizing i with
  | zero => rfl
  | succ n ih =>
    have hi : p i = false := h i le_rfl (by omega)
    simp [findFirstHit, hi]
    exact ih (i + 1) (fun j hj hj' => h j (by omega) (by omega))

lemma findLastHit_eq_some (p : Nat → Bool) (n x : Nat)
    (hhi : x < n) (hp : p x = true)
    (hmax : ∀ j, x < j → j < n → p j = false) :
    findLastHit p n = some x := by
  induction n with
  | zero => omega
  | succ m ih =>
    rcases Nat.eq_or_lt_of_le (Nat.lt_succ_iff.mp hhi) with h | h
    · subst h; simp [findLastHit, hp]
    · have hm : p m = false := hmax m h (by omega)
      simp [findLastHit, hm]
      exact ih h (fun j hj hj' => hmax j hj (by omega))

lemma findLastHit_none (p : Nat → Bool) (n : Nat)
    (h : ∀ j, j < n → p j = false) :
    findLastHit p n = none := by
  induction n with
  | zero => rfl
  | succ m ih =>
    have hm : p m = false := h m (by omega)
    simp [findLastHit, hm]
    exact ih (fun j hj => h j (by omega))

lemma findFirstHit_some_spec (p : Nat → Bool) (i fuel x : Nat)
    (h : findFirstHit p i fuel = some x) :
    i ≤ x ∧ x < i + fuel ∧ p x = true ∧ ∀ j, i ≤ j → j < x → p j = false := by
  induction fuel generalizing i with
  | zero => simp [findFirstHit] at h
  | succ n ih =>
    by_cases hi : p i = true
    · simp [findFirstHit, hi] at h
      subst h
      exact ⟨le_rfl, by omega, hi, fun j hj hj' => by omega⟩
    · simp [findFirstHit, hi] at h
      obtain ⟨h1, h2, h3, h4⟩ := ih (i + 1) h
      refine ⟨by omega, by omega, h3, fun j hj hj' => ?_⟩
      rcases Nat.eq_or_lt_of_le hj with rfl | hj2
      · simpa using hi
      · exact h4 j hj2 hj'

lemma findLastHit_some_spec (p : Nat → Bool) (n x : Nat)
    (h : findLastHit p n = some x) :
    x < n ∧ p x = true ∧ ∀ j, x < j → j < n → p j = false := by
  induction n with
  | zero => simp [findLastHit] at h
  | succ m ih =>
    by_cases hm : p m = true
    · simp [findLastHit, hm] at h
      subst h
      exact ⟨by omega, hm, fun j hj hj' => by omega⟩
    · simp [findLastHit, hm] at h
      obtain ⟨h1, h2, h3⟩ := ih h
      refine ⟨by omega, h2, fun j hj hj' => ?_⟩
      rcases Nat.eq_or_lt_of_le (Nat.lt_succ_iff.mp hj') with rfl | hj2
      · simpa using hm
      · exact h3 j hj hj2

lemma findFirstHit_none_spec (p : Nat → Bool) (i fuel : Nat)
    (h : findFirstHit p i fuel = none) :
    ∀ j, i ≤ j → j < i + fuel → p j = false := by
  induction fuel generalizing i with
  | zero => omega
  | succ n ih =>
    by_cases hi : p i = true
    · simp [findFirstHit, hi] at h
    · simp [findFirstHit, hi] at h
      intro j hj hj'
      rcases Nat.eq_or_lt_of_le hj with rfl | hj2
      · simpa using hi
      · exact ih (i + 1) h j hj2 (by omega)

lemma findFirstHit_isSome_of_hit (p : Nat → Bool) (n x : Nat)
    (hx : x < n) (hp : p x = true) :
    ∃ y, findFirstHit p 0 n = some y := by
  cases hfind : findFirstHit p 0 n with
  | some y => exact ⟨y, rfl⟩
  | none =>
    have := findFirstHit_none_spec p 0 n hfind x (by omega) (by omega)
    rw [hp] at this
    exact absurd this (by simp)

lemma findLastHit_isSome_of_hit (p : Nat → Bool) (n x : Nat)
    (hx : x < n) (hp : p x = true) :
    ∃ y, findLastHit p n = some y := by
  induction n with
  | zero => omega
  | succ m ih =>
    by_cases hm : p m = true
    · exact ⟨m, by simp [findLastHit, hm]⟩
    · have hx' : x < m := by
        rcases Nat.eq_or_lt_of_le (Nat.lt_succ_iff.mp hx) with rfl | h
        · rw [hp] at hm; simp at hm
        · exact h
      obtain ⟨y, hy⟩ := ih hx'
      exact ⟨y, by simp [findLastHit, hm, hy]⟩

end ScanLemmas

section CropLemmas

lemma contentCol_cropOf (img : Img) (x : Nat) :
    contentCol (cropOf img) x = contentCol img (x + leftBoundary img) := rfl

/-- Once `smart_crop_image` has cropped, the guard no longer fires. -/
lemma cropGuard_cropOf (img : Img) (hg : cropGuard img = true) :
    cropGuard (cropOf img) = false := by
  -- The guard fired, so some column has content.
  have hex : ∃ x, x < img.w ∧ contentCol img x = true := by
    have hg' : 0 < leftBoundary img ∨ (rightBoundary img : Int) < (img.w : Int) - 10 := by
      simpa [cropGuard] using hg
    rcases hg' with h | h
    · rcases hfind : findFirstHit (contentCol img) 0 img.w with _ | x
      · simp [leftBoundary, hfind] at h
      · obtain ⟨_, hlt, hp, _⟩ := findFirstHit_some_spec _ _ _ _ hfind
        exact ⟨x, by omega, hp⟩
    · rcases hfind : findLastHit (contentCol img) img.w with _ | x
      · simp [rightBoundary, hfind] at h
        exact absurd h (by omega)
      · obtain ⟨hlt, hp, _⟩ := findLastHit_some_spec _ _ _ hfind
        exact ⟨x, hlt, hp⟩
  obtain ⟨x0, hx0w, hx0⟩ := hex
  -- Both scans therefore hit; name the first and last content columns.
  obtain ⟨xl, hxl⟩ := findFirstHit_isSome_of_hit (contentCol img) img.w x0 hx0w hx0
  obtain ⟨xr, hxr⟩ := findLastHit_isSome_of_hit (contentCol img) img.w x0 hx0w hx0
  obtain ⟨-, hxlw, hxlp, hxlmin⟩ := findFirstHit_some_spec _ _ _ _ hxl
  obtain ⟨hxrw, hxrp, hxrmax⟩ := findLastHit_some_spec _ _ _ hxr
  have hxlxr : xl ≤ xr := by
    by_contra hlt
    have := hxrmax xl (by omega) (by omega)
    rw [hxlp] at this; simp at this
  have hL : leftBoundary img = xl - 10 := by simp [leftBoundary, hxl]
  have hR : rightBoundary img = min img.w (xr + 10) := by simp [rightBoundary, hxr]
  set L := leftBoundary img with hLdef
  set R := rightBoundary img with hRdef
  have hLle : L ≤ xl := by omega
  have hxlR : xl < R := by omega
  have hxrR : xr < R := by omega
  have hRw : R ≤ img.w := by omega
  -- The scans on the cropped image find `xl - L` and `xr - L`.
  have hw' : (cropOf img).w = R - L := rfl
  have hfirst' : findFirstHit (contentCol (cropOf img)) 0 (R - L) = some (xl - L) := by
    apply findFirstHit_eq_some
    · omega
    · omega
    · rw [contentCol_cropOf, ← hLdef, Nat.sub_add_cancel hLle]; exact hxlp
    · intro j hj hj'
      rw [contentCol_cropOf, ← hLdef]
      exact hxlmin (j + L) (by omega) (by omega)
  have hlast' : findLastHit (contentCol (cropOf img)) (R - L) = some (xr - L) := by
    apply findLastHit_eq_some
    · omega
    · rw [contentCol_cropOf, ← hLdef, Nat.sub_add_cancel (by omega)]; exact hxrp
    · intro j hj hj'
      rw [contentCol_cropOf, ← hLdef]
      exact hxrmax (j + L) (by omega) (by omega)
  have hL' : leftBoundary (cropOf img) = 0 := by
    have : leftBoundary (cropOf img) = (xl - L) - 10 := by
      simp only [leftBoundary, hw', hfirst']
    omega
  have hR' : rightBoundary (cropOf img) = R - L := by
    have : rightBoundary (cropOf img) = min (R - L) ((xr - L) + 10) := by
      simp only [rightBoundary, hw', hlast']
    omega
  simp only [cropGuard, hL', hR', hw']
  simp

end CropLemmas

section WidthLemmas

lemma rightBoundary_le (img : Img) : rightBoundary img ≤ img.w := by
  rw [rightBoundary]
  cases findLastHit (contentCol img) img.w with
  | none => exact le_rfl
  | some x => exact min_le_left _ _

/-- Cropping never widens an image. -/
lemma smart_crop_w_le (img : Img) : (smart_crop_image img).w ≤ img.w := by
  rw [smart_crop_image]
  by_cases hg : cropGuard img = true
  · simp only [hg, if_true, cropOf]
    exact le_trans (Nat.sub_le _ _) (rightBoundary_le img)
  · simp only [Bool.not_eq_true] at hg
    simp [hg]

lemma smart_crop_h_eq (img : Img) : (smart_crop_image img).h = img.h := by
  rw [smart_crop_image]
  by_cases hg : cropGuard img = true
  · simp [hg, cropOf]
  · simp only [Bool.not_eq_true] at hg
    simp [hg]

end WidthLemmas

section MonitorLemmas

lemma mem_check_loop_processed (os : List (Option String)) (p : List String)
    (pn : String) :
    pn ∈ (check_new_orders_loop os p).1 ↔
      pn ∈ p ∨ pn ∈ (check_new_orders_loop os p).2 := by
  induction os generalizing p with
  | nil => simp [check_new_orders_loop]
  | cons o rest ih =>
    cases o with
    | none => simpa [check_new_orders_loop] using ih p
    | some pn' =>
      by_cases hc : pn' = "" ∨ pn' ∈ p
      · simpa [check_new_orders_loop, hc] using ih p
      · simp only [check_new_orders_loop, if_neg hc]
        rw [List.mem_cons]
        constructor
        · intro h
          rcases (ih (pn' :: p)).mp h with h2 | h2
          · rcases List.mem_cons.mp h2 with h3 | h3
            · exact Or.inr (Or.inl h3)
            · exact Or.inl h3
          · exact Or.inr (Or.inr h2)
        · intro h
          rcases h with h2 | h2 | h2
          · exact (ih (pn' :: p)).mpr (Or.inl (List.mem_cons.mpr (Or.inr h2)))
          · exact (ih (pn' :: p)).mpr (Or.inl (List.mem_cons.mpr (Or.inl h2)))
          · exact (ih (pn' :: p)).mpr (Or.inr h2)

lemma check_loop_processed_subset (os : List (Option String)) (p : List String) :
    p ⊆ (check_new_orders_loop os p).1 := by
  intro pn hpn
  exact (mem_check_loop_processed os p pn).mpr (Or.inl hpn)

lemma check_loop_count (os : List (Option String)) (p : List String)
    (pn : String) :
    (check_new_orders_loop os p).2.count pn ≤ if pn ∈ p then 0 else 1 := by
  induction os generalizing p with
  | nil => simp [check_new_orders_loop]
  | cons o rest ih =>
    cases o with
    | none => simpa [check_new_orders_loop] using ih p
    | some pn' =>
      by_cases hc : pn' = "" ∨ pn' ∈ p
      · simpa [check_new_orders_loop, hc] using ih p
      · simp only [check_new_orders_loop, if_neg hc]
        by_cases he : pn' = pn
        · subst he
          have h0 : pn' ∈ pn' :: p := List.mem_cons_self _ _
          have := ih (pn' :: p)
          rw [if_pos h0] at this
          have hnp : pn' ∉ p := fun h => hc (Or.inr h)
          rw [if_neg hnp]
          simp only [List.count_cons_self]
          omega
        · have hne : ¬pn = pn' := fun h => he h.symm
          have hthis := ih (pn' :: p)
          have hcc : List.count pn (pn' :: (check_new_orders_loop rest (pn' :: p)).2)
              = List.count pn (check_new_orders_loop rest (pn' :: p)).2 := by
            simp [List.count_cons, hne]
          rw [hcc]
          by_cases hp : pn ∈ p
          · rw [if_pos hp]
            rw [if_pos (List.mem_cons.mpr (Or.inr hp))] at hthis
            exact hthis
          · rw [if_neg hp]
            have hnotc : pn ∉ pn' :: p := by
              rw [List.mem_cons]
              push_neg
              exact ⟨hne, hp⟩
            rw [if_neg hnotc] at hthis
            exact hthis

end MonitorLemmas

section RunLemmas

lemma run_processed_superset (p : List String) (bs : List (List (Option String))) :
    p ⊆ (order_monitor_run p bs).1 := by
  induction bs generalizing p with
  | nil => simp [order_monitor_run]
  | cons b rest ih =>
    intro pn hpn
    simp only [order_monitor_run]
    exact ih _ (check_loop_processed_subset b p hpn)

lemma run_count (p : List String) (bs : List (List (Option String))) (pn : String) :
    notifCount pn (order_monitor_run p bs).2 ≤ if pn ∈ p then 0 else 1 := by
  induction bs generalizing p with
  | nil => simp [order_monitor_run, notifCount]
  | cons b rest ih =>
    simp only [order_monitor_run]
    by_cases hp : pn ∈ p
    · have hp1 : pn ∈ (check_new_orders_loop b p).1 := check_loop_processed_subset b p hp
      have h1 := ih (check_new_orders_loop b p).1
      rw [if_pos hp1] at h1
      have h2 : List.count pn (check_new_orders_loop b p).2 = 0 := by
        have := check_loop_count b p pn
        rw [if_pos hp] at this
        omega
      rw [if_pos hp]
      by_cases hE : (check_new_orders_loop b p).2 = []
      · simpa [hE] using h1
      · simp only [if_neg hE, notifCount, List.map_cons, List.sum_cons]
        simp only [notifCount] at h1
        omega
    · rw [if_neg hp]
      by_cases hr2 : pn ∈ (check_new_orders_loop b p).2
      · have hp1 : pn ∈ (check_new_orders_loop b p).1 :=
          (mem_check_loop_processed b p pn).mpr (Or.inr hr2)
        have h1 := ih (check_new_orders_loop b p).1
        rw [if_pos hp1] at h1
        have hc := check_loop_count b p pn
        rw [if_neg hp] at hc
        by_cases hE : (check_new_orders_loop b p).2 = []
        · rw [hE] at hr2; simp at hr2
        · simp only [if_neg hE, notifCount, List.map_cons, List.sum_cons]
          simp only [notifCount] at h1
          omega
      · have hcz : List.count pn (check_new_orders_loop b p).2 = 0 :=
          List.count_eq_zero.mpr hr2
        have hp1 : pn ∉ (check_new_orders_loop b p).1 := by
          intro h
          rcases (mem_check_loop_processed b p pn).mp h with h2 | h2
          · exact hp h2
          · exact hr2 h2
        have h1 := ih (check_new_orders_loop b p).1
        rw [if_neg hp1] at h1
        by_cases hE : (check_new_orders_loop b p).2 = []
        · simpa [hE] using h1
        · simp only [if_neg hE, notifCount, List.map_cons, List.sum_cons]
          simp only [notifCount] at h1
          omega

lemma run_join_subset (p : List String) (bs : List (List (Option String))) :
    (order_monitor_run p bs).2.flatten ⊆ (order_monitor_run p bs).1 := by
  induction bs generalizing p with
  | nil => simp [order_monitor_run]
  | cons b rest ih =>
    intro pn hpn
    simp only [order_monitor_run] at hpn ⊢
    by_cases hE : (check_new_orders_loop b p).2 = []
    · rw [if_pos hE] at hpn
      exact ih _ hpn
    · rw [if_neg hE] at hpn
      simp only [List.flatten_cons] at hpn
      rcases List.mem_append.mp hpn with h | h
      · have hp1 : pn ∈ (check_new_orders_loop b p).1 :=
          (mem_check_loop_processed b p pn).mpr (Or.inr h)
        exact run_processed_superset _ rest hp1
      · exact ih _ h

end RunLemmas

/-! ## Claim theorems -/

/-- C1 (amended): the composite canvas `generate_smart_label` builds is
exactly `min(label width, 1202)` pixels wide (and `label height + 200`
tall), but the emitted artifact is that canvas after `smart_crop_image`,
which can only keep or shrink the width; likewise
`create_combined_barcode_label_image` lays out a canvas exactly as wide as
the smart label it is given and then crops it, so the emitted widths are
only bounded by `min(inputLabelWidth, 1202)`, not equal to it. -/
theorem C1_composite_width (label : Img) (cmds : List DrawBox)
    (m : TextMetrics) (productsInfo : List LineItem) (nm pn : String)
    (sl : Img) (bars : List Img) (out : Img)
    (hout : create_combined_barcode_label_image sl bars = some out) :
    (renderSmartCanvas label cmds).w = min label.w 1202 ∧
    (renderSmartCanvas label cmds).h = label.h + 200 ∧
    (generate_smart_label_img m label productsInfo nm pn).w ≤ min label.w 1202 ∧
    (combinedCanvas sl bars).w = sl.w ∧
    out.w ≤ sl.w := by
  refine ⟨rfl, rfl, ?_, rfl, ?_⟩
  · exact smart_crop_w_le (renderSmartCanvas label
      (smartLabelCmds m label.w label.h (smartLabelText productsInfo nm)
        ("Заказ: " ++ pn)))
  · by_cases hE : bars.isEmpty
    · simp [create_combined_barcode_label_image, hE] at hout
    · simp only [create_combined_barcode_label_image, hE, Bool.false_eq_true,
        if_false, Option.some.injEq] at hout
      rw [← hout]
      exact smart_crop_w_le (combinedCanvas sl bars)

theorem C1_composite_width_witness :
    (renderSmartCanvas whiteImg5 []).w = min whiteImg5.w 1202 ∧
    (renderSmartCanvas whiteImg5 []).h = whiteImg5.h + 200 ∧
    (generate_smart_label_img zeroMetrics whiteImg5 [] "" "").w ≤ min whiteImg5.w 1202 ∧
    (combinedCanvas whiteImg5 [whiteImg2]).w = whiteImg5.w ∧
    (smart_crop_image (combinedCanvas whiteImg5 [whiteImg2])).w ≤ whiteImg5.w :=
  C1_composite_width whiteImg5 [] zeroMetrics [] "" "" whiteImg5 [whiteImg2]
    (smart_crop_image (combinedCanvas whiteImg5 [whiteImg2])) rfl

/-- C1 counterexample: for the 300px-wide rotated label `c1Label` (content
column at x = 150, proportional font metrics), the smart-label artifact is
259px wide — the margin crop removed the blank side bands — not
`min 300 1202 = 300`; the combined artifact built on it is also 259px
wide. -/
theorem C1_composite_width_counterexample :
    (generate_smart_label_img propMetrics c1Label [] "X" "1").w = 259 ∧
    ((create_combined_barcode_label_image
        (generate_smart_label_img propMetrics c1Label [] "X" "1")
        [c1Barcode]).map Img.w) = some 259 ∧
    min c1Label.w 1202 = 300 ∧ ¬(259 = 300) := by
  have hcmds : smartLabelCmds propMetrics 300 40 (smartLabelText [] "X")
      ("Заказ: " ++ "1") = [⟨30, 60, 240, 50⟩, ⟨30, 260, 240, 50⟩] := by decide
  have h1 : generate_smart_label_img propMetrics c1Label [] "X" "1" =
      smart_crop_image (renderSmartCanvas c1Label
        [⟨30, 60, 240, 50⟩, ⟨30, 260, 240, 50⟩]) := by
    show smart_crop_image (renderSmartCanvas c1Label
      (smartLabelCmds propMetrics c1Label.w c1Label.h (smartLabelText [] "X")
        ("Заказ: " ++ "1"))) = _
    rw [show c1Label.w = 300 from rfl, show c1Label.h = 40 from rfl, hcmds]
  have hL : leftBoundary (renderSmartCanvas c1Label
      [⟨30, 60, 240, 50⟩, ⟨30, 260, 240, 50⟩]) = 20 := by decide
  have hR : rightBoundary (renderSmartCanvas c1Label
      [⟨30, 60, 240, 50⟩, ⟨30, 260, 240, 50⟩]) = 279 := by decide
  have hg : cropGuard (renderSmartCanvas c1Label
      [⟨30, 60, 240, 50⟩, ⟨30, 260, 240, 50⟩]) = true := by decide
  have h2 : smart_crop_image (renderSmartCanvas c1Label
      [⟨30, 60, 240, 50⟩, ⟨30, 260, 240, 50⟩]) =
      ⟨259, 240, fun x y => (renderSmartCanvas c1Label
        [⟨30, 60, 240, 50⟩, ⟨30, 260, 240, 50⟩]).pix (x + 20) y⟩ := by
    simp only [smart_crop_image, hg, if_true, cropOf, hL, hR]
    rfl
  rw [h1, h2]
  refine ⟨rfl, ?_, rfl, by decide⟩
  decide

/-- C2 (amended): `generate_barcode_image_for_combined` always emits a
1202-wide, positive-height canvas (downscaling the raw barcode when it is
wider than 1202); but `generate_barcode_image` — the renderer the
scenario's options (module width 0.8, height 40, quiet zone 6) belong to —
keeps the raw encoded width with no cap and no downscaling, and for
payload "4600000000000" (13 digits, raw Code128 render 1303×496 at
300 dpi) emits a 1303×856 image, wider than 1202. -/
theorem C2_barcode_width :
    (∀ raw : Nat × Nat,
      (generate_barcode_image_for_combined_size raw).1 = 1202 ∧
      0 < (generate_barcode_image_for_combined_size raw).2 ∧
      (generate_barcode_image_size raw).1 = raw.1) ∧
    rawDigitBarcodeSize 13 8 400 60 = (1303, 496) ∧
    generate_barcode_image_size (rawDigitBarcodeSize 13 8 400 60) = (1303, 856) ∧
    1202 < 1303 ∧ 0 < 856 := by
  refine ⟨fun raw => ⟨rfl, ?_, rfl⟩, by decide, by decide, by decide, by decide⟩
  simp only [generate_barcode_image_for_combined_size]
  omega

/-- C2 counterexample: on the scenario payload (13 digits at module width
0.8, height 40) `generate_barcode_image` emits width 1303, which is not
≤ 1202 — the downscaling the claim asserts does not exist in that
renderer. -/
theorem C2_barcode_width_counterexample :
    (generate_barcode_image_size (rawDigitBarcodeSize 13 8 400 60)).1 = 1303 ∧
    ¬((generate_barcode_image_size (rawDigitBarcodeSize 13 8 400 60)).1 ≤ 1202) := by
  decide

/-- C3: evaluation at a failing input. With fixed-pitch metrics, the text
"aa bbbbbbbbbb" in a 200px-wide, 400px-tall box is accepted at the first
candidate size (50) on the normal, non-fallback path, yet its second
emitted line is the unchecked overwide word (rendered width 500 > 200):
the truncation branch only runs when `current_line` is empty, so a word
that fails to fit after a line was flushed is emitted untruncated,
contradicting the strict-width-control contract. -/
theorem C3_wrap_overflow_eval :
    draw_text_with_smart_fit linMetrics ("aa bbbbbbbbbb".data) 200 400 =
      ⟨50, [['a', 'a'], ['b', 'b', 'b', 'b', 'b', 'b', 'b', 'b', 'b', 'b']],
        false⟩ ∧
    linMetrics 50 ['b', 'b', 'b', 'b', 'b', 'b', 'b', 'b', 'b', 'b'] = 500 ∧
    200 < 500 := by decide

/-- C4 (amended): a column of `smart_crop_image` counts as content exactly
when some sampled pixel (stride `max(1, height // 20)`) has **some** RGB
channel below 250 — not the channel average, as the spec words it — and the
crop window is the first content column from the left minus 10 clamped at
0, and the last content column plus 10 clamped at the width. -/
theorem C4_content_column (img : Img) (xl xr : Nat)
    (hxlW : xl < img.w) (hxl : contentCol img xl = true)
    (hxlMin : ∀ j, j < xl → contentCol img j = false)
    (hxrW : xr < img.w) (hxr : contentCol img xr = true)
    (hxrMax : ∀ j, xr < j → j < img.w → contentCol img j = false) :
    (∀ x, contentCol img x = true ↔
      ∃ y ∈ sampledRows img.h,
        (img.pix x y).r < 250 ∨ (img.pix x y).g < 250 ∨ (img.pix x y).b < 250) ∧
    leftBoundary img = xl - 10 ∧
    rightBoundary img = min img.w (xr + 10) := by
  refine ⟨?_, ?_, ?_⟩
  · intro x
    simp [contentCol, darkPx, List.any_eq_true, or_assoc]
  · rw [leftBoundary,
      findFirstHit_eq_some (contentCol img) 0 img.w xl (by omega) (by omega)
        hxl (fun j _ hj => hxlMin j hj)]
  · rw [rightBoundary, findLastHit_eq_some (contentCol img) img.w xr hxrW hxr hxrMax]

theorem C4_content_column_witness :
    (∀ x, contentCol c4SmallImg x = true ↔
      ∃ y ∈ sampledRows c4SmallImg.h,
        (c4SmallImg.pix x y).r < 250 ∨ (c4SmallImg.pix x y).g < 250 ∨
          (c4SmallImg.pix x y).b < 250) ∧
    leftBoundary c4SmallImg = 1 - 10 ∧
    rightBoundary c4SmallImg = min c4SmallImg.w (1 + 10) :=
  C4_content_column c4SmallImg 1 1 (by decide) (by decide)
    (by decide) (by decide) (by decide)
    (by
      intro j h1 h2
      have hw : j < 3 := h2
      have he : j = 2 := by omega
      subst he
      decide)

/-- C4 counterexample: in `c4Img` the column-15 pixel is `(249, 255, 255)`:
its channel average is 253 ≥ 250 (not content under the claim's reading),
yet the code's per-channel test fires, so the code crops to width 20 while
the claim's average-based cropper would leave the 30px image unchanged. -/
theorem C4_content_column_counterexample :
    contentCol c4Img 15 = true ∧ specContentCol c4Img 15 = false ∧
    (smart_crop_image c4Img).w = 20 ∧ (spec_smart_crop_image c4Img).w = 30 := by
  decide

/-- C5: `smart_crop_image` is idempotent — after one crop the first content
column sits within 10px of the left edge and the last within 10px of the
right edge, so the guard `left > 0 or right < width - 10` can no longer
fire and the second application returns its input unchanged. -/
theorem C5_smart_crop_idempotent (img : Img) :
    smart_crop_image (smart_crop_image img) = smart_crop_image img := by
  by_cases hg : cropGuard img = true
  · have h1 : smart_crop_image img = cropOf img := by
      simp [smart_crop_image, hg]
    rw [h1, smart_crop_image, cropGuard_cropOf img hg]
    simp
  · have h1 : smart_crop_image img = img := by
      simp only [Bool.not_eq_true] at hg
      simp [smart_crop_image, hg]
    rw [h1]
    exact h1

/-- C6: `generate_smart_label` fails exactly on an unparseable document
(`none`) or a zero-page document (`some []`), and the failure is a value
returned to the caller — the caller reports an error message in chat and
carries on — while any document with a first page yields an artifact. -/
theorem C6_document_error (m : TextMetrics) (productsInfo : List LineItem)
    (nm pn : String) :
    (∀ pdf, generate_smart_label m pdf productsInfo nm pn = none ↔
        pdf = none ∨ pdf = some []) ∧
    (∀ pg rest, generate_smart_label m (some (pg :: rest)) productsInfo nm pn =
        some (generate_smart_label_img m (rotateCCW pg) productsInfo nm pn)) ∧
    combined_label_caller_report none = "error_message" ∧
    (∀ img, combined_label_caller_report (some img) = "document") := by
  refine ⟨?_, fun pg rest => rfl, rfl, fun img => rfl⟩
  intro pdf
  match pdf with
  | none => simp [generate_smart_label]
  | some [] => simp [generate_smart_label]
  | some (pg :: rest) => simp [generate_smart_label]

/-- C7 (amended): for the scenario item the emitted line is
"Заказ 2 товар: чехол для Красный красный" — it contains "2", the red
color token, and a 25-capped short name — but the color substring is *not*
removed from the short name: `full_name.replace(color.lower(), '')` is
case-sensitive and misses the capitalized "Красный", which
`shorten_product_name_for_barcode` then re-appends, so the red token
appears twice. -/
theorem C7_single_item_text :
    smartLabelText [c7Item] "" = "Заказ 2 товар: чехол для Красный красный" ∧
    strContains (smartLabelText [c7Item] "") "2" = true ∧
    strContains (lowerStr (smartLabelText [c7Item] "")) "красный" = true ∧
    (shorten_product_name_for_barcode c7Item.name 25).length ≤ 25 := by decide

/-- C7 counterexample: the color token occurs twice in the emitted text
(case-insensitively), so the short name still contains the detected color —
under the claim's "color substring removed from the product name" it would
occur exactly once (the appended color word). -/
theorem C7_color_not_removed :
    smartLabelText [c7Item] "" = "Заказ 2 товар: чехол для Красный красный" ∧
    countSubOcc "красный".data (lowerStr (smartLabelText [c7Item] "")).data = 2 := by
  decide

/-- C8 (amended): on the empty string the fitter succeeds at the *largest*
candidate size (50) on the normal path and emits **no** line at all (not a
single empty line); a boundary-free word that exceeds the budget does take
the character-truncation path (here "abcdefghij" → "abc..."). -/
theorem C8_empty_text (m : TextMetrics) (maxW maxH : Nat) :
    draw_text_with_smart_fit m [] maxW maxH = ⟨50, [], false⟩ ∧
    draw_text_with_smart_fit linMetrics ("abcdefghij".data) 100 400 =
      ⟨50, [['a', 'b', 'c', '.', '.', '.']], false⟩ := by
  constructor
  · show fitLoop m [] maxW maxH smartFontSizes = _
    simp [fitLoop, smartFontSizes, wrapMain, splitWs, splitWsAux, wrapMainAux]
  · decide

/-- C8 counterexample: the fitter's output on the empty string is an empty
line list, not the single empty line the claim states. -/
theorem C8_empty_not_single_line :
    (draw_text_with_smart_fit linMetrics [] 100 400).lines = [] ∧
    ¬((draw_text_with_smart_fit linMetrics [] 100 400).lines = [[]]) := by decide

/-- C9: over any run of the order monitor, the `processed_orders` set only
grows, every notified posting number is in the final set (it is added
before the notification is sent), and each posting number is notified at
most once ever — zero times if it was already in the set. -/
theorem C9_at_most_one_notification (init : List String)
    (batches : List (List (Option String))) :
    init ⊆ (order_monitor_run init batches).1 ∧
    (order_monitor_run init batches).2.flatten ⊆ (order_monitor_run init batches).1 ∧
    ∀ pn, notifCount pn (order_monitor_run init batches).2 ≤
      if pn ∈ init then 0 else 1 :=
  ⟨run_processed_superset init batches, run_join_subset init batches,
   fun pn => run_count init batches pn⟩

/-- C10: `is_admin` holds exactly when `str(user_id)` equals the configured
admin chat id or the hardcoded "669994046"; and when it is false, every
command handler sends only the access-denied reply, and the callback
handler sends only the denied alert plus the access-denied reply — no menu
action and no marketplace call. -/
theorem C10_admin_gate (adminChatId : String) (userId : Int) (data : String)
    (h : is_admin adminChatId userId = false) :
    (∀ a u, is_admin a u = true ↔ (toString u = a ∨ toString u = "669994046")) ∧
    start_command adminChatId userId = [BotEffect.accessDenied] ∧
    help_command adminChatId userId = [BotEffect.accessDenied] ∧
    orders_command adminChatId userId = [BotEffect.accessDenied] ∧
    labels_command adminChatId userId = [BotEffect.accessDenied] ∧
    monitor_command adminChatId userId = [BotEffect.accessDenied] ∧
    callback_handler adminChatId userId data =
      [BotEffect.answerCallback (some "Доступ запрещен") true,
       BotEffect.accessDenied] ∧
    (callback_handler adminChatId userId data).all BotEffect.isDeniedReply = true := by
  refine ⟨?_, ?_, ?_, ?_, ?_, ?_, ?_, ?_⟩
  · intro a u
    simp [is_admin, List.contains]
  all_goals
    simp [start_command, show_main_menu, help_command, orders_command,
      labels_command, monitor_command, callback_handler, check_admin_access,
      h, BotEffect.isDeniedReply]

theorem C10_admin_gate_witness :
    (∀ a u, is_admin a u = true ↔ (toString u = a ∨ toString u = "669994046")) ∧
    start_command "1" 2 = [BotEffect.accessDenied] ∧
    help_command "1" 2 = [BotEffect.accessDenied] ∧
    orders_command "1" 2 = [BotEffect.accessDenied] ∧
    labels_command "1" 2 = [BotEffect.accessDenied] ∧
    monitor_command "1" 2 = [BotEffect.accessDenied] ∧
    callback_handler "1" 2 "stats" =
      [BotEffect.answerCallback (some "Доступ запрещен") true,
       BotEffect.accessDenied] ∧
    (callback_handler "1" 2 "stats").all BotEffect.isDeniedReply = true :=
  C10_admin_gate "1" 2 "stats" (by decide)
